import Mathlib

/-!
Verification of the signal aggregation engine of `skalibog/bfma`.

The Go source is shallowly embedded over `ℚ` (the source computes in
`float64`; every claim checked here is about exact arithmetic identities,
guards and control flow, so rational arithmetic is the faithful model and
every division that the source performs unguarded is either proved to have
a nonzero divisor under the claim's hypotheses or tracked in `Option`).

Sections follow the source:
* combiner / orchestrator: `cmd/bfma/main.go` (aggregator), `pkg/models/models.go`
* funding analyzer: `internal/analysis/funding/analyzer.go`
* technical analyzer (RSI mapping): `internal/analysis/technical/analyzer.go`
* order-book analyzer: `internal/analysis/oianalysis/analyzer.go` (package orderbook)
-/

namespace BFMA

/-! ### Combiner / orchestrator (aggregator in cmd/bfma/main.go) -/

/-- `config.SignalThresholds`: the four ordered global thresholds. -/
structure SignalThresholds where
  StrongBuy : ℚ
  Buy : ℚ
  Sell : ℚ
  StrongSell : ℚ

/-- The five discrete recommendation labels produced by
`generateSignalForSymbol` (the source stores them as strings, see
`Recommendation.label`). -/
inductive Recommendation where
  | strongBuy
  | buy
  | strongSell
  | sell
  | neutral
deriving DecidableEq, Repr

/-- The exact strings the source assigns to each recommendation. -/
def Recommendation.label : Recommendation → String
  | .strongBuy => "СИЛЬНАЯ ПОКУПКА"
  | .buy => "ПОКУПКА"
  | .strongSell => "СИЛЬНАЯ ПРОДАЖА"
  | .sell => "ПРОДАЖА"
  | .neutral => "НЕЙТРАЛЬНО"

/-- The ordered if/else chain of `generateSignalForSymbol`
(main.go lines 294-313) mapping the weighted composite to a
recommendation and a position size. -/
def classify (t : SignalThresholds) (weightedSignal : ℚ) : Recommendation × ℚ :=
  if weightedSignal ≥ t.StrongBuy then (.strongBuy, 1)
  else if weightedSignal ≥ t.Buy then (.buy, 7/10)
  else if weightedSignal ≤ t.StrongSell then (.strongSell, 1)
  else if weightedSignal ≤ t.Sell then (.sell, 7/10)
  else (.neutral, 0)

/-- The position size each recommendation always carries in the source. -/
def recSize : Recommendation → ℚ
  | .strongBuy => 1
  | .buy => 7/10
  | .strongSell => 1
  | .sell => 7/10
  | .neutral => 0

/-- Outcome of the five analyzer invocations for one symbol
(`technicalSignal, technicalErr`, ... in `generateSignalForSymbol`). -/
structure AnalyzerRuns where
  technical : Except String ℚ
  orderbook : Except String ℚ
  funding : Except String ℚ
  openInterest : Except String ℚ
  volumeDelta : Except String ℚ

/-- Per-analyzer weights (`cfg.Technical.Weight`, ...). -/
structure AnalysisWeights where
  technical : ℚ
  orderbook : ℚ
  funding : ℚ
  openInterest : ℚ
  volumeDelta : ℚ

/-- The error-neutralization step of `generateSignalForSymbol`
(main.go lines 263-285): a failed analyzer's signal is replaced by 0. -/
def neutralize : Except String ℚ → ℚ
  | .ok v => v
  | .error _ => 0

/-- `models.SignalResult` (pkg/models/models.go lines 49-58); the
`Components` map is represented by its five fixed entries. -/
structure SignalResult where
  Symbol : String
  Recommendation : Recommendation
  SignalStrength : ℚ
  PositionSize : ℚ
  CurrentPrice : ℚ
  componentTechnical : ℚ
  componentOrderbook : ℚ
  componentFunding : ℚ
  componentOpenInterest : ℚ
  componentVolumeDelta : ℚ

/-- The result `generateSignalForSymbol` builds for one symbol: neutralize
failed analyzers, weight the five signals, classify, attach the current
price (`GetLatestCandles`: on error or empty list the price stays 0). -/
def signalFor (w : AnalysisWeights) (t : SignalThresholds) (symbol : String)
    (runs : AnalyzerRuns) (latestCloses : Except String (List ℚ)) : SignalResult :=
  let technicalSignal := neutralize runs.technical
  let orderbookSignal := neutralize runs.orderbook
  let fundingSignal := neutralize runs.funding
  let oiSignal := neutralize runs.openInterest
  let volumeDeltaSignal := neutralize runs.volumeDelta
  let weightedSignal := technicalSignal * w.technical + orderbookSignal * w.orderbook
    + fundingSignal * w.funding + oiSignal * w.openInterest
    + volumeDeltaSignal * w.volumeDelta
  let rp := classify t weightedSignal
  { Symbol := symbol
    Recommendation := rp.1
    SignalStrength := weightedSignal
    PositionSize := rp.2
    CurrentPrice := match latestCloses with | .ok (c :: _) => c | _ => 0
    componentTechnical := technicalSignal
    componentOrderbook := orderbookSignal
    componentFunding := fundingSignal
    componentOpenInterest := oiSignal
    componentVolumeDelta := volumeDeltaSignal }

/-- `generateSignalForSymbol` (main.go lines 214-345): every analyzer error
is neutralized and a `SaveSignal` failure (`saveOk = false`) is only
logged, so the function's single exit is `return result, nil`. -/
def generateSignalForSymbol (w : AnalysisWeights) (t : SignalThresholds) (symbol : String)
    (runs : AnalyzerRuns) (latestCloses : Except String (List ℚ)) (saveOk : Bool) :
    Except String SignalResult :=
  .ok (signalFor w t symbol runs latestCloses)

/-- `GenerateSignals` (main.go lines 183-211): per-symbol signals collected
into one map (association list); a symbol is skipped only when its
generation returns an error. -/
def GenerateSignals (w : AnalysisWeights) (t : SignalThresholds) (symbols : List String)
    (runs : String → AnalyzerRuns) (latestCloses : String → Except String (List ℚ))
    (saveOk : String → Bool) : List (String × SignalResult) :=
  symbols.foldl (fun results sym =>
    match generateSignalForSymbol w t sym (runs sym) (latestCloses sym) (saveOk sym) with
    | .error _ => results
    | .ok signal => (sym, signal) :: results) []

/-! ### Helper lemmas about the classifier -/

lemma classify_fst_strongBuy (t : SignalThresholds) (s : ℚ) :
    (classify t s).1 = .strongBuy ↔ t.StrongBuy ≤ s := by
  unfold classify
  split_ifs with h1 h2 h3 h4 <;> simp_all [ge_iff_le] <;> linarith

lemma classify_fst_buy (t : SignalThresholds) (s : ℚ) :
    (classify t s).1 = .buy ↔ s < t.StrongBuy ∧ t.Buy ≤ s := by
  unfold classify
  split_ifs with h1 h2 h3 h4 <;>
    simp_all [ge_iff_le, not_le] <;> intro h <;> linarith

lemma classify_fst_strongSell (t : SignalThresholds) (s : ℚ) :
    (classify t s).1 = .strongSell ↔ s < t.StrongBuy ∧ s < t.Buy ∧ s ≤ t.StrongSell := by
  unfold classify
  split_ifs with h1 h2 h3 h4 <;> simp_all [ge_iff_le, not_le] <;> intro h <;> try intro h2
  all_goals linarith

lemma classify_fst_sell (t : SignalThresholds) (s : ℚ) :
    (classify t s).1 = .sell ↔
      s < t.StrongBuy ∧ s < t.Buy ∧ t.StrongSell < s ∧ s ≤ t.Sell := by
  unfold classify
  split_ifs with h1 h2 h3 h4 <;> simp_all [ge_iff_le, not_le] <;> intro h <;> try intro h2
  all_goals linarith

lemma classify_fst_neutral (t : SignalThresholds) (s : ℚ) :
    (classify t s).1 = .neutral ↔
      s < t.StrongBuy ∧ s < t.Buy ∧ t.StrongSell < s ∧ t.Sell < s := by
  unfold classify
  split_ifs with h1 h2 h3 h4 <;> simp_all [ge_iff_le, not_le] <;> intro h <;> try intro h2
  all_goals linarith

lemma classify_snd_eq_recSize (t : SignalThresholds) (s : ℚ) :
    (classify t s).2 = recSize (classify t s).1 := by
  unfold classify
  split_ifs <;> rfl

lemma classify_at_zero (t : SignalThresholds) (h1 : 0 < t.StrongBuy) (h2 : 0 < t.Buy)
    (h3 : t.Sell < 0) (h4 : t.StrongSell < 0) : classify t 0 = (.neutral, 0) := by
  unfold classify
  split_ifs with g1 g2 g3 g4 <;> first | rfl | (exfalso; simp only [ge_iff_le] at *; linarith)

/-! ### Claim theorems: combiner -/

/-- C1: The recommendation classifier is a pure, total function of the
composite score and the four thresholds, evaluated as an ordered
first-match-wins chain with buy-side thresholds before sell-side, and on
thresholds {60, 20, -20, -60} it maps 60 to strong buy / 1.0,
25 to buy / 0.7, 0 to neutral / 0.0, -30 to sell / 0.7,
-70 to strong sell / 1.0. -/
theorem claim_C1_classifier_chain :
    (∀ (t : SignalThresholds) (s : ℚ),
      ((classify t s).1 = .strongBuy ↔ t.StrongBuy ≤ s)
      ∧ ((classify t s).1 = .buy ↔ s < t.StrongBuy ∧ t.Buy ≤ s)
      ∧ ((classify t s).1 = .strongSell ↔ s < t.StrongBuy ∧ s < t.Buy ∧ s ≤ t.StrongSell)
      ∧ ((classify t s).1 = .sell ↔
          s < t.StrongBuy ∧ s < t.Buy ∧ t.StrongSell < s ∧ s ≤ t.Sell)
      ∧ ((classify t s).1 = .neutral ↔
          s < t.StrongBuy ∧ s < t.Buy ∧ t.StrongSell < s ∧ t.Sell < s)
      ∧ (classify t s).2 = recSize (classify t s).1)
    ∧ classify ⟨60, 20, -20, -60⟩ 60 = (.strongBuy, 1)
    ∧ classify ⟨60, 20, -20, -60⟩ 25 = (.buy, 7/10)
    ∧ classify ⟨60, 20, -20, -60⟩ 0 = (.neutral, 0)
    ∧ classify ⟨60, 20, -20, -60⟩ (-30) = (.sell, 7/10)
    ∧ classify ⟨60, 20, -20, -60⟩ (-70) = (.strongSell, 1) := by
  refine ⟨fun t s => ⟨classify_fst_strongBuy t s, classify_fst_buy t s,
    classify_fst_strongSell t s, classify_fst_sell t s, classify_fst_neutral t s,
    classify_snd_eq_recSize t s⟩, ?_, ?_, ?_, ?_, ?_⟩ <;> norm_num [classify]

/-- C2: if all five analyzers fail and the buy thresholds are strictly
positive while the sell thresholds are strictly negative, the emitted
result has composite score 0, recommendation neutral and position size 0. -/
theorem claim_C2_all_fail_neutral (w : AnalysisWeights) (t : SignalThresholds)
    (symbol : String) (e₁ e₂ e₃ e₄ e₅ : String) (latest : Except String (List ℚ))
    (h1 : 0 < t.StrongBuy) (h2 : 0 < t.Buy) (h3 : t.Sell < 0) (h4 : t.StrongSell < 0) :
    (signalFor w t symbol ⟨.error e₁, .error e₂, .error e₃, .error e₄, .error e₅⟩
        latest).SignalStrength = 0
    ∧ (signalFor w t symbol ⟨.error e₁, .error e₂, .error e₃, .error e₄, .error e₅⟩
        latest).Recommendation = .neutral
    ∧ (signalFor w t symbol ⟨.error e₁, .error e₂, .error e₃, .error e₄, .error e₅⟩
        latest).PositionSize = 0 := by
  have hz : (0 : ℚ) * w.technical + 0 * w.orderbook + 0 * w.funding + 0 * w.openInterest
      + 0 * w.volumeDelta = 0 := by ring
  simp only [signalFor, neutralize, hz]
  rw [classify_at_zero t h1 h2 h3 h4]
  simp

theorem claim_C2_all_fail_neutral_witness :
    (0 : ℚ) < 60 ∧ (0 : ℚ) < 20 ∧ (-20 : ℚ) < 0 ∧ (-60 : ℚ) < 0
    ∧ (signalFor ⟨1, 1, 1, 1, 1⟩ ⟨60, 20, -20, -60⟩ "BTCUSDT"
        ⟨.error "a", .error "b", .error "c", .error "d", .error "e"⟩
        (.error "no candles")).SignalStrength = 0
    ∧ (signalFor ⟨1, 1, 1, 1, 1⟩ ⟨60, 20, -20, -60⟩ "BTCUSDT"
        ⟨.error "a", .error "b", .error "c", .error "d", .error "e"⟩
        (.error "no candles")).Recommendation = .neutral
    ∧ (signalFor ⟨1, 1, 1, 1, 1⟩ ⟨60, 20, -20, -60⟩ "BTCUSDT"
        ⟨.error "a", .error "b", .error "c", .error "d", .error "e"⟩
        (.error "no candles")).PositionSize = 0 := by
  have h := claim_C2_all_fail_neutral ⟨1, 1, 1, 1, 1⟩ ⟨60, 20, -20, -60⟩ "BTCUSDT"
    "a" "b" "c" "d" "e" (.error "no candles")
    (by norm_num) (by norm_num) (by norm_num) (by norm_num)
  exact ⟨by norm_num, by norm_num, by norm_num, by norm_num, h.1, h.2.1, h.2.2⟩

/-- C9: every emitted position size is one of {0, 0.7, 1} and is determined
by the recommendation: strong buy and strong sell carry 1, buy and sell
carry 0.7, neutral carries 0. -/
theorem claim_C9_position_size_discrete (w : AnalysisWeights) (t : SignalThresholds)
    (symbol : String) (runs : AnalyzerRuns) (latest : Except String (List ℚ)) :
    (signalFor w t symbol runs latest).PositionSize
        = recSize (signalFor w t symbol runs latest).Recommendation
    ∧ ((signalFor w t symbol runs latest).PositionSize = 0
        ∨ (signalFor w t symbol runs latest).PositionSize = 7/10
        ∨ (signalFor w t symbol runs latest).PositionSize = 1) := by
  simp only [signalFor]
  refine ⟨classify_snd_eq_recSize t _, ?_⟩
  rw [classify_snd_eq_recSize t _]
  cases (classify t _).1 <;> simp [recSize]

/-! ### Linear-regression slope helper
(`calculateSlope`, identical in funding/analyzer.go lines 159-185 and
oianalysis/analyzer.go lines 203-229). -/

/-- The accumulation loop of `calculateSlope`: starting at index `x`,
returns `(sum_x, sum_y, sum_xy, sum_xx)`. -/
def slopeSums : List ℚ → ℚ → ℚ × ℚ × ℚ × ℚ
  | [], _ => (0, 0, 0, 0)
  | y :: ys, x =>
    let s := slopeSums ys (x + 1)
    (s.1 + x, s.2.1 + y, s.2.2.1 + x * y, s.2.2.2 + x * x)

/-- `calculateSlope`: OLS slope over `values` indexed from 0. The source
guards the result with `math.IsNaN(slope) → 0`; over `ℚ` the 0/0 case is
already 0 by `Rat` convention, and `slopeDenom_pos` below shows the
denominator is strictly positive for length ≥ 2, so for finite inputs the
float computation produces neither NaN nor ±Inf. -/
def calculateSlope (values : List ℚ) : ℚ :=
  if values.length < 2 then 0
  else
    let s := slopeSums values 0
    let n : ℚ := values.length
    (n * s.2.2.1 - s.1 * s.2.1) / (n * s.2.2.2 - s.1 * s.1)

/-- The denominator of the slope formula, `n*sum_xx - sum_x*sum_x`. -/
def slopeDenom (values : List ℚ) : ℚ :=
  (values.length : ℚ) * (slopeSums values 0).2.2.2
    - (slopeSums values 0).1 * (slopeSums values 0).1

/-- `0 + 1 + ... + (n-1)` as a rational. -/
def sumIdx (n : ℕ) : ℚ := (n : ℚ) * ((n : ℚ) - 1) / 2

/-- `0² + 1² + ... + (n-1)²` as a rational. -/
def sumIdxSq (n : ℕ) : ℚ := (n : ℚ) * ((n : ℚ) - 1) * (2 * (n : ℚ) - 1) / 6

lemma slopeSums_fst_spec (l : List ℚ) (x : ℚ) :
    (slopeSums l x).1 = l.length * x + sumIdx l.length
    ∧ (slopeSums l x).2.2.2
      = l.length * x ^ 2 + 2 * x * sumIdx l.length + sumIdxSq l.length := by
  induction l generalizing x with
  | nil => simp [slopeSums, sumIdx, sumIdxSq]
  | cons y ys ih =>
    obtain ⟨h1, h2⟩ := ih (x + 1)
    constructor
    · show (slopeSums ys (x + 1)).1 + x = _
      rw [h1, List.length_cons]
      unfold sumIdx; push_cast; ring
    · show (slopeSums ys (x + 1)).2.2.2 + x * x = _
      rw [h2, List.length_cons]
      unfold sumIdx sumIdxSq; push_cast; ring

lemma slopeSums_replicate (n : ℕ) (c : ℚ) (x : ℚ) :
    (slopeSums (List.replicate n c) x).2.1 = n * c
    ∧ (slopeSums (List.replicate n c) x).2.2.1
      = c * (slopeSums (List.replicate n c) x).1 := by
  induction n generalizing x with
  | zero => simp [slopeSums]
  | succ m ih =>
    obtain ⟨h1, h2⟩ := ih (x + 1)
    simp only [List.replicate_succ, slopeSums]
    constructor
    · rw [h1]; push_cast; ring
    · rw [h2]; ring

lemma slopeDenom_pos (l : List ℚ) (h : 2 ≤ l.length) : 0 < slopeDenom l := by
  obtain ⟨h1, h2⟩ := slopeSums_fst_spec l 0
  have key : slopeDenom l
      = (l.length : ℚ) ^ 2 * ((l.length : ℚ) - 1) * ((l.length : ℚ) + 1) / 12 := by
    unfold slopeDenom
    rw [h1, h2]
    unfold sumIdx sumIdxSq
    ring
  rw [key]
  have hn : (2 : ℚ) ≤ (l.length : ℚ) := by exact_mod_cast h
  have hpos : (0 : ℚ) < (l.length : ℚ) := by linarith
  apply div_pos _ (by norm_num)
  apply mul_pos (mul_pos (by positivity) (by linarith)) (by linarith)

/-! ### Funding analyzer (internal/analysis/funding/analyzer.go) -/

/-- `models.FundingRate`: the textual `Rate` field is represented by its
`parseRate` outcome (`none` = malformed string). -/
structure FundingRate where
  Rate : Option ℚ

/-- `config.FundingConfig` (the `Weight` field is consumed by the
aggregator, not by the analyzer itself). -/
structure FundingConfig where
  Periods : ℕ
  ExtremeThreshold : ℚ

/-- `analyzeExtremes` (funding/analyzer.go lines 53-84). -/
def analyzeExtremes (cfg : FundingConfig) (rates : List FundingRate) : ℚ :=
  match rates with
  | [] => 0
  | r :: _ =>
    match r.Rate with
    | none => 0
    | some currentRate =>
      if currentRate > cfg.ExtremeThreshold then
        -100 * min (currentRate / (1/100)) 1
      else if currentRate < -cfg.ExtremeThreshold then
        100 * min (|currentRate| / (1/100)) 1
      else
        -currentRate * 10000

/-- `analyzeTrend` (funding/analyzer.go lines 87-124); parse failures are
skipped (`continue`), hence the `filterMap`. -/
def analyzeTrend (rates : List FundingRate) : ℚ :=
  if rates.length < 3 then 0
  else
    let fundingValues := rates.filterMap (fun r => r.Rate)
    if fundingValues.length < 3 then 0
    else
      let slope := calculateSlope fundingValues
      if slope > 0 then -100 * min (slope * 1000) 1
      else 100 * min (|slope| * 1000) 1

/-- `analyzeChange` (funding/analyzer.go lines 127-156). -/
def analyzeChange (rates : List FundingRate) : ℚ :=
  match rates with
  | r₀ :: r₁ :: _ =>
    match r₀.Rate, r₁.Rate with
    | some currentRate, some prevRate =>
      let change := currentRate - prevRate
      if change > 0 then -100 * min (change / (1/1000)) 1
      else 100 * min (|change| / (1/1000)) 1
    | _, _ => 0
  | _ => 0

/-- funding `Analyze` (funding/analyzer.go lines 28-50), taking the funding
history that the storage collaborator returned; its doc comment promises a
signal between -100 and 100. -/
def fundingAnalyze (cfg : FundingConfig) (rates : List FundingRate) : Except String ℚ :=
  if rates.isEmpty then .error "нет данных о ставках финансирования"
  else
    .ok (analyzeExtremes cfg rates * (2/5) + analyzeTrend rates * (2/5)
      + analyzeChange rates * (1/5))

/-! ### Technical analyzer: RSI normalization -/

/-- `calculateRSI`'s normalization of the last RSI value
(technical/analyzer.go lines 68-90); the RSI series itself is produced by
the external go-talib library, so the embedding takes the last RSI value
as its input. -/
def calculateRSI (lastRSI : ℚ) : ℚ :=
  if lastRSI < 30 then 100 * (30 - lastRSI) / 30
  else if lastRSI > 70 then -100 * (lastRSI - 70) / 30
  else (50 - lastRSI) * 2

/-! ### Claim theorems: slope, funding bound, RSI -/

/-- C8: the slope helper returns exactly 1 on [1,2,3,4,5]; its denominator
is strictly positive for every input of length ≥ 2 (so the float division
is never 0/0, i.e. never NaN); and on any input of n ≥ 2 identical values
it returns 0. -/
theorem claim_C8_slope_helper :
    calculateSlope [1, 2, 3, 4, 5] = 1
    ∧ (∀ l : List ℚ, 2 ≤ l.length → 0 < slopeDenom l)
    ∧ (∀ (n : ℕ) (c : ℚ), 2 ≤ n → calculateSlope (List.replicate n c) = 0) := by
  refine ⟨?_, slopeDenom_pos, ?_⟩
  · norm_num [calculateSlope, slopeSums]
  · intro n c hn
    obtain ⟨h1, h2⟩ := slopeSums_replicate n c 0
    unfold calculateSlope
    rw [if_neg (by simp; omega)]
    simp only [List.length_replicate]
    rw [h1, h2]
    have : (n : ℚ) * (c * (slopeSums (List.replicate n c) 0).1)
        - (slopeSums (List.replicate n c) 0).1 * ((n : ℚ) * c) = 0 := by ring
    rw [this, zero_div]

theorem claim_C8_slope_helper_witness :
    0 < slopeDenom [(3 : ℚ), 3] ∧ calculateSlope (List.replicate 5 (7 : ℚ)) = 0 :=
  ⟨claim_C8_slope_helper.2.1 [(3 : ℚ), 3] (by norm_num),
   claim_C8_slope_helper.2.2 5 7 (by norm_num)⟩

/-- C3 (falsified by the code): the funding analyzer succeeds on the
single-rate history [0.5] under ExtremeThreshold = 1 and returns -2000,
far outside the promised [-100, 100] range: in the within-threshold
branch the signal is `-rate*10000`, which is unbounded. -/
theorem claim_C3_funding_score_unbounded :
    fundingAnalyze ⟨8, 1⟩ [⟨some (1/2)⟩] = .ok (-2000)
    ∧ ((-2000 : ℚ) < -100) := by
  constructor
  · norm_num [fundingAnalyze, analyzeExtremes, analyzeTrend, analyzeChange]
  · norm_num

/-- C6: the RSI sub-signal mapping: `100*(30-rsi)/30` below 30 (and at most
100 whenever rsi ≥ 0), `-100*(rsi-70)/30` above 70, `(50-rsi)*2` in the
neutral band; rsi = 20 gives 100/3 ≈ 33.33, rsi = 80 gives -100/3 ≈ -33.33,
rsi = 50 gives 0. -/
theorem claim_C6_rsi_mapping :
    (∀ rsi : ℚ, rsi < 30 → calculateRSI rsi = 100 * (30 - rsi) / 30)
    ∧ (∀ rsi : ℚ, rsi > 70 → calculateRSI rsi = -100 * (rsi - 70) / 30)
    ∧ (∀ rsi : ℚ, 30 ≤ rsi → rsi ≤ 70 → calculateRSI rsi = (50 - rsi) * 2)
    ∧ (∀ rsi : ℚ, 0 ≤ rsi → calculateRSI rsi ≤ 100)
    ∧ calculateRSI 20 = 100/3
    ∧ calculateRSI 80 = -100/3
    ∧ calculateRSI 50 = 0 := by
  refine ⟨?_, ?_, ?_, ?_, ?_, ?_, ?_⟩
  · intro rsi h; rw [calculateRSI, if_pos h]
  · intro rsi h; rw [calculateRSI, if_neg (by linarith), if_pos h]
  · intro rsi h1 h2; rw [calculateRSI, if_neg (by linarith), if_neg (by linarith)]
  · intro rsi h
    unfold calculateRSI
    split_ifs with h1 h2
    · rw [div_le_iff (by norm_num : (0:ℚ) < 30)]; linarith
    · have : -100 * (rsi - 70) / 30 ≤ 0 := by
        apply div_nonpos_of_nonpos_of_nonneg <;> linarith
      linarith
    · linarith
  · norm_num [calculateRSI]
  · norm_num [calculateRSI]
  · norm_num [calculateRSI]

theorem claim_C6_rsi_mapping_witness :
    calculateRSI 20 = 100 * (30 - 20) / 30
    ∧ calculateRSI 80 = -100 * (80 - 70) / 30
    ∧ calculateRSI 50 = (50 - 50) * 2
    ∧ calculateRSI 20 ≤ 100 :=
  ⟨claim_C6_rsi_mapping.1 20 (by norm_num),
   claim_C6_rsi_mapping.2.1 80 (by norm_num),
   claim_C6_rsi_mapping.2.2.1 50 (by norm_num) (by norm_num),
   claim_C6_rsi_mapping.2.2.2.1 20 (by norm_num)⟩

/-! ### Claim C4: no analyzer or persistence error is fatal -/

lemma lookup_foldl_cons (f : String → SignalResult) :
    ∀ (syms : List String) (acc : List (String × SignalResult)) (s : String),
      (s ∈ syms ∨ acc.lookup s = some (f s)) →
      (syms.foldl (fun results sym => (sym, f sym) :: results) acc).lookup s = some (f s) := by
  intro syms
  induction syms with
  | nil =>
    intro acc s h
    rcases h with h | h
    · cases h
    · simpa using h
  | cons a rest ih =>
    intro acc s h
    simp only [List.foldl_cons]
    apply ih
    by_cases hs : s = a
    · right; subst hs; simp [List.lookup_cons]
    · rcases h with h | h
      · rcases List.mem_cons.mp h with h' | h'
        · exact absurd h' hs
        · left; exact h'
      · right; simp only [List.lookup_cons]
        rw [show (s == a) = false from beq_eq_false_iff_ne.mpr hs]
        exact h

/-- C4: analyzer and persistence errors are never fatal: for arbitrary
per-symbol analyzer outcomes (any number of failures), `GenerateSignals`
returns a map with an entry for every tracked symbol holding that symbol's
`SignalResult`; the per-symbol result does not depend on whether
`SaveSignal` succeeded; and an analyzer error is converted to the neutral
score 0. -/
theorem claim_C4_no_fatal_errors (w : AnalysisWeights) (t : SignalThresholds)
    (symbols : List String) (runs : String → AnalyzerRuns)
    (latest : String → Except String (List ℚ)) (saveOk : String → Bool)
    (s : String) (hs : s ∈ symbols) :
    (GenerateSignals w t symbols runs latest saveOk).lookup s
      = some (signalFor w t s (runs s) (latest s))
    ∧ (∀ b₁ b₂ : Bool, generateSignalForSymbol w t s (runs s) (latest s) b₁
        = generateSignalForSymbol w t s (runs s) (latest s) b₂)
    ∧ (∀ e : String, neutralize (.error e) = 0) := by
  refine ⟨?_, fun b₁ b₂ => rfl, fun e => rfl⟩
  exact lookup_foldl_cons (fun sym => signalFor w t sym (runs sym) (latest sym))
    symbols [] s (Or.inl hs)

theorem claim_C4_no_fatal_errors_witness :
    ("BTCUSDT" ∈ ["BTCUSDT", "ETHUSDT"])
    ∧ (GenerateSignals ⟨1, 1, 1, 1, 1⟩ ⟨60, 20, -20, -60⟩ ["BTCUSDT", "ETHUSDT"]
        (fun _ => ⟨.error "x", .error "x", .error "x", .error "x", .error "x"⟩)
        (fun _ => .error "y") (fun _ => false)).lookup "BTCUSDT"
      = some (signalFor ⟨1, 1, 1, 1, 1⟩ ⟨60, 20, -20, -60⟩ "BTCUSDT"
          ⟨.error "x", .error "x", .error "x", .error "x", .error "x"⟩ (.error "y")) := by
  have h := claim_C4_no_fatal_errors ⟨1, 1, 1, 1, 1⟩ ⟨60, 20, -20, -60⟩
    ["BTCUSDT", "ETHUSDT"]
    (fun _ => ⟨.error "x", .error "x", .error "x", .error "x", .error "x"⟩)
    (fun _ => .error "y") (fun _ => false) "BTCUSDT" (by simp)
  exact ⟨by simp, h.1⟩

/-! ### Order-book analyzer (oianalysis/analyzer.go, package orderbook)

The analyzer's arithmetic is embedded in an `Option` monad that tracks the
two ways a Go run can go wrong: an out-of-range slice index (a panic) and
a division whose divisor is zero (a float NaN/±Inf silently poisoning the
signal). `none` marks such a run; every division the source performs
behind a guard is embedded with the same guard and stays total. -/

/-- `orderbook.OrderLevel`: numeric price/amount after conversion. -/
structure OrderLevel where
  Price : ℚ
  Amount : ℚ
deriving DecidableEq

/-- Division tracking a zero divisor as `none`. -/
def div? (a b : ℚ) : Option ℚ := if b = 0 then none else some (a / b)

/-- `config.OrderBookConfig` (the `Weight` field is consumed by the
aggregator; `Depth` only parameterizes the upstream collector). -/
structure OrderBookConfig where
  Depth : ℕ
  ImbalanceThreshold : ℚ

/-- `calculateImbalance` (orderbook lines 344-376). -/
def calculateImbalance (threshold : ℚ) (bids asks : List OrderLevel) : Option ℚ :=
  let totalBidVolume := (bids.map (fun b => b.Amount)).sum
  let totalAskVolume := (asks.map (fun a => a.Amount)).sum
  if totalBidVolume = 0 ∧ totalAskVolume = 0 then some 0
  else do
    let bidRatio ← div? totalBidVolume (totalBidVolume + totalAskVolume)
    let askRatio ← div? totalAskVolume (totalBidVolume + totalAskVolume)
    let imbalance := (bidRatio - askRatio) * 100
    some (if |imbalance| < threshold then 0 else imbalance)

/-- `calculateDepth` (orderbook lines 379-437): reads the best bid and ask
unconditionally (`bids[0]`, `asks[0]`); the four depth levels
0.5%/1%/2%/5% carry weights 0.4/0.3/0.2/0.1. The per-level ratio division
is guarded by `totalVolume > 0` in the source; all price deviations divide
by the same `midPrice`, checked once. -/
def calculateDepth (bids asks : List OrderLevel) : Option ℚ := do
  let b0 ← bids.head?
  let a0 ← asks.head?
  let midPrice := (b0.Price + a0.Price) / 2
  if midPrice = 0 then none
  else
    let bidVol := fun (lvl : ℚ) =>
      (bids.map (fun b => if 1 - b.Price / midPrice ≤ lvl then b.Amount else 0)).sum
    let askVol := fun (lvl : ℚ) =>
      (asks.map (fun a => if a.Price / midPrice - 1 ≤ lvl then a.Amount else 0)).sum
    let ratio := fun (lvl : ℚ) =>
      if bidVol lvl = 0 ∧ askVol lvl = 0 then 0
      else if bidVol lvl + askVol lvl > 0 then
        (bidVol lvl - askVol lvl) / (bidVol lvl + askVol lvl)
      else 0
    some ((ratio (1/200) * (2/5) + ratio (1/100) * (3/10)
      + ratio (1/50) * (1/5) + ratio (1/20) * (1/10)) * 100)

/-- `findSignificantLevels` (orderbook lines 525-546): levels whose volume
exceeds 1.5 times the side's mean volume. -/
def findSignificantLevels (levels : List OrderLevel) : List OrderLevel :=
  if levels.isEmpty then []
  else
    let avgVolume := (levels.map (fun l => l.Amount)).sum / (levels.length : ℚ)
    levels.filter (fun l => l.Amount > avgVolume * (3/2))

/-- `findClosestLevel` (orderbook lines 549-571). -/
def findClosestLevel (levels : List OrderLevel) (price : ℚ) (above : Bool) :
    Option OrderLevel :=
  levels.foldl (fun closest level =>
    if (above ∧ level.Price ≤ price) ∨ (¬above ∧ level.Price ≥ price) then closest
    else
      match closest with
      | none => some level
      | some b =>
        if |level.Price - price| < |b.Price - price| then some level else some b)
    none

/-- `calculateSupportResistance` (orderbook lines 440-494): returns 0 when
either side has fewer than 3 levels. -/
def calculateSupportResistance (bids asks : List OrderLevel) : Option ℚ :=
  if bids.length < 3 ∨ asks.length < 3 then some 0
  else if (findSignificantLevels bids).isEmpty ∧ (findSignificantLevels asks).isEmpty then
    some 0
  else do
    let b0 ← bids.head?
    let a0 ← asks.head?
    let currentPrice := (b0.Price + a0.Price) / 2
    match findClosestLevel (findSignificantLevels bids) currentPrice false,
        findClosestLevel (findSignificantLevels asks) currentPrice true with
      | some closestSupport, some closestResistance => do
        let supportDistance ← div? (currentPrice - closestSupport.Price) currentPrice
        let resistanceDistance ← div? (closestResistance.Price - currentPrice) currentPrice
        let supportStrength := min 1 (closestSupport.Amount / 1000)
        let resistanceStrength := min 1 (closestResistance.Amount / 1000)
        if supportDistance = 0 ∧ resistanceDistance = 0 then some 0
        else
          let normalizedSupportDist := min supportDistance (1/10) / (1/10)
          let normalizedResistanceDist := min resistanceDistance (1/10) / (1/10)
          let supportFactor := (1 - normalizedSupportDist) * supportStrength
          let resistanceFactor := normalizedResistanceDist * resistanceStrength
          some ((supportFactor - resistanceFactor) * 100)
      | _, _ => some 0

/-- One iteration of the `calculateAverageSpreads` loop: when `i+1` is out
of range the iteration contributes nothing (`some 0`); the bid/ask
orientation test compares the first and last level prices. -/
def spreadTerm (levels : List OrderLevel) (i : ℕ) : Option ℚ :=
  match levels.get? i, levels.get? (i + 1) with
  | some x, some y =>
    match levels.head?, levels.getLast? with
    | some f, some l =>
      if f.Price > l.Price then div? (x.Price - y.Price) y.Price
      else div? (y.Price - x.Price) x.Price
    | _, _ => none
  | _, _ => some 0

/-- The `totalSpread` accumulation of `calculateAverageSpreads`: sequence
the loop iterations, failing if any iteration fails. -/
def spreadTerms (levels : List OrderLevel) : List ℕ → Option (List ℚ)
  | [] => some []
  | i :: is =>
    match spreadTerm levels i, spreadTerms levels is with
    | some v, some vs => some (v :: vs)
    | _, _ => none

/-- `calculateAverageSpreads` (orderbook lines 574-605); the final division
is by `count ≥ 1` (the `count = 0` case returns first). -/
def calculateAverageSpreads (levels : List OrderLevel) (count : ℕ) : Option ℚ :=
  let count := if levels.length < count + 1 then levels.length - 1 else count
  if count = 0 then some 0
  else do
    let spreads ← spreadTerms levels (List.range count)
    some (spreads.sum / (count : ℚ))

/-- `calculateSpreads` (orderbook lines 497-522): reads the best bid and
ask unconditionally; the `spreadRatio` division is guarded by
`bidSpreads > 0 && askSpreads > 0` in the source. -/
def calculateSpreads (bids asks : List OrderLevel) : Option ℚ := do
  let b0 ← bids.head?
  let a0 ← asks.head?
  let currentSpread ← div? (a0.Price - b0.Price) ((a0.Price + b0.Price) / 2)
  let bidSpreads ← calculateAverageSpreads bids 5
  let askSpreads ← calculateAverageSpreads asks 5
  let spreadRatio :=
    if bidSpreads > 0 ∧ askSpreads > 0 then
      (askSpreads - bidSpreads) / max bidSpreads askSpreads
    else 0
  let spreadFactor := min (currentSpread * 100) 1
  some (spreadRatio * (1 - spreadFactor) * 50)

/-- `models.OrderBookLevel`: the textual price/amount fields are
represented by their `strconv.ParseFloat` outcomes (`none` = malformed). -/
structure OrderBookLevel where
  Price : Option ℚ
  Amount : Option ℚ

/-- `models.OrderBook` restricted to the fields the analyzer reads. -/
structure OrderBook where
  Bids : List OrderBookLevel
  Asks : List OrderBookLevel

/-- Parsing one level inside `convertOrderBookLevels`: the price is parsed
before the amount, so a bad price wins. -/
def parseLevel (level : OrderBookLevel) : Except String OrderLevel :=
  match level.Price, level.Amount with
  | some price, some amount => .ok ⟨price, amount⟩
  | none, _ => .error "ошибка парсинга цены"
  | _, none => .error "ошибка парсинга объема"

/-- The per-side parsing loop of `convertOrderBookLevels`: first parse
error aborts. -/
def parseLevels : List OrderBookLevel → Except String (List OrderLevel)
  | [] => .ok []
  | l :: ls =>
    match parseLevel l with
    | .error e => .error e
    | .ok x =>
      match parseLevels ls with
      | .error e => .error e
      | .ok xs => .ok (x :: xs)

/-- `convertOrderBookLevels` (orderbook lines 290-341): parse both sides,
then sort bids by descending and asks by ascending price. -/
def convertOrderBookLevels (book : OrderBook) :
    Except String (List OrderLevel × List OrderLevel) :=
  match parseLevels book.Bids with
  | .error e => .error e
  | .ok bids =>
    match parseLevels book.Asks with
    | .error e => .error e
    | .ok asks =>
      .ok (bids.mergeSort (fun i j => decide (j.Price ≤ i.Price)),
        asks.mergeSort (fun i j => decide (i.Price ≤ j.Price)))

/-- orderbook `Analyze` (orderbook lines 261-287): sub-signal weights
{imbalance 0.4, depth 0.2, support/resistance 0.25, spreads 0.15}.
`some (.error e)` is the analyzer returning an error (neutralized by the
aggregator); `none` is a run that would panic or divide by zero. -/
def orderbookAnalyze (cfg : OrderBookConfig) (book : OrderBook) :
    Option (Except String ℚ) :=
  match convertOrderBookLevels book with
  | .error e => some (.error e)
  | .ok (bids, asks) => do
    let imbalanceSignal ← calculateImbalance cfg.ImbalanceThreshold bids asks
    let depthSignal ← calculateDepth bids asks
    let supportResistanceSignal ← calculateSupportResistance bids asks
    let spreadsSignal ← calculateSpreads bids asks
    some (.ok (imbalanceSignal * (2/5) + depthSignal * (1/5)
      + supportResistanceSignal * (1/4) + spreadsSignal * (3/20)))

/-! ### Claim theorems: order-book imbalance and the 3-level guard -/

/-- C7: for amounts that are genuine volumes (non-negative) and not all
zero, the imbalance sub-signal is `(bidVolume-askVolume)/(bidVolume+askVolume)*100`
with the dead-zone: the value when its absolute value reaches the
configured threshold, 0 otherwise. -/
theorem claim_C7_imbalance_formula (threshold : ℚ) (bids asks : List OrderLevel)
    (hb : ∀ l ∈ bids, 0 ≤ l.Amount) (ha : ∀ l ∈ asks, 0 ≤ l.Amount)
    (hnz : ¬((bids.map (fun b => b.Amount)).sum = 0
      ∧ (asks.map (fun a => a.Amount)).sum = 0)) :
    calculateImbalance threshold bids asks
      = some (if |((bids.map (fun b => b.Amount)).sum - (asks.map (fun a => a.Amount)).sum)
              / ((bids.map (fun b => b.Amount)).sum + (asks.map (fun a => a.Amount)).sum)
              * 100| < threshold
          then 0
          else ((bids.map (fun b => b.Amount)).sum - (asks.map (fun a => a.Amount)).sum)
            / ((bids.map (fun b => b.Amount)).sum + (asks.map (fun a => a.Amount)).sum)
            * 100) := by
  have htb : 0 ≤ (bids.map (fun b => b.Amount)).sum := by
    apply List.sum_nonneg
    intro x hx
    obtain ⟨l, hl, rfl⟩ := List.mem_map.mp hx
    exact hb l hl
  have hta : 0 ≤ (asks.map (fun a => a.Amount)).sum := by
    apply List.sum_nonneg
    intro x hx
    obtain ⟨l, hl, rfl⟩ := List.mem_map.mp hx
    exact ha l hl
  have htv : (bids.map (fun b => b.Amount)).sum + (asks.map (fun a => a.Amount)).sum ≠ 0 := by
    intro h
    exact hnz ⟨by linarith, by linarith⟩
  unfold calculateImbalance
  rw [if_neg hnz]
  simp only [div?, if_neg htv, Option.some_bind, Option.bind_eq_bind, div_sub_div_same]

/-- Witness for C7 at the spec's own example: bids totaling 70 units, asks
totaling 30 units, threshold 5, signal 40. -/
theorem claim_C7_imbalance_formula_witness :
    calculateImbalance 5 [⟨100, 70⟩] [⟨101, 30⟩] = some 40 := by
  have h := claim_C7_imbalance_formula 5 [⟨100, 70⟩] [⟨101, 30⟩]
    (by intro l hl; simp at hl; subst hl; norm_num)
    (by intro l hl; simp at hl; subst hl; norm_num)
    (by norm_num)
  rw [h]
  norm_num

/-- C5 (falsified by the code): on a book with one level per side (fewer
than 3 levels on both sides) the imbalance sub-signal is 20, not 0: only
the support/resistance sub-signal carries the 3-level guard. -/
theorem claim_C5_counterexample :
    ([⟨100, 60⟩] : List OrderLevel).length < 3
    ∧ ([⟨101, 40⟩] : List OrderLevel).length < 3
    ∧ calculateImbalance 2 [⟨100, 60⟩] [⟨101, 40⟩] = some 20
    ∧ (20 : ℚ) ≠ 0 := by
  refine ⟨by norm_num, by norm_num, ?_, by norm_num⟩
  norm_num [calculateImbalance, div?]

/-- C5 (amended): for every order book with fewer than 3 levels on either
side, the support/resistance sub-signal contributes 0 rather than raising
an error; the other sub-signals carry no such guard. -/
theorem claim_C5_support_resistance_guard (bids asks : List OrderLevel)
    (h : bids.length < 3 ∨ asks.length < 3) :
    calculateSupportResistance bids asks = some 0 := by
  unfold calculateSupportResistance
  rw [if_pos h]

theorem claim_C5_support_resistance_guard_witness :
    calculateSupportResistance [⟨100, 60⟩] [⟨101, 40⟩] = some 0 :=
  claim_C5_support_resistance_guard [⟨100, 60⟩] [⟨101, 40⟩] (by norm_num)

/-! ### Claim C10: the order-book analyzer is safe on nonempty parseable books -/

lemma parseLevels_ok (ls : List OrderBookLevel)
    (h : ∀ l ∈ ls, ∃ p a, l.Price = some p ∧ l.Amount = some a ∧ 0 < p ∧ 0 ≤ a) :
    ∃ out : List OrderLevel, parseLevels ls = .ok out
      ∧ out.length = ls.length
      ∧ ∀ x ∈ out, 0 < x.Price ∧ 0 ≤ x.Amount := by
  induction ls with
  | nil => exact ⟨[], rfl, rfl, by intro x hx; cases hx⟩
  | cons l rest ih =>
    obtain ⟨p, a, hp, ha, hpp, hap⟩ := h l (List.mem_cons_self l rest)
    obtain ⟨out, hout, hlen, hmem⟩ := ih (fun x hx => h x (List.mem_cons_of_mem l hx))
    refine ⟨⟨p, a⟩ :: out, ?_, by simp [hlen], ?_⟩
    · simp [parseLevels, parseLevel, hp, ha, hout]
    · intro x hx
      rcases List.mem_cons.mp hx with rfl | hx
      · exact ⟨hpp, hap⟩
      · exact hmem x hx

lemma calculateImbalance_isSome (threshold : ℚ) (bids asks : List OrderLevel)
    (hb : ∀ l ∈ bids, 0 ≤ l.Amount) (ha : ∀ l ∈ asks, 0 ≤ l.Amount) :
    (calculateImbalance threshold bids asks).isSome := by
  by_cases hz : (bids.map (fun b => b.Amount)).sum = 0
      ∧ (asks.map (fun a => a.Amount)).sum = 0
  · unfold calculateImbalance
    rw [if_pos hz]
    rfl
  · have htb : 0 ≤ (bids.map (fun b => b.Amount)).sum := by
      apply List.sum_nonneg
      intro x hx
      obtain ⟨l, hl, rfl⟩ := List.mem_map.mp hx
      exact hb l hl
    have hta : 0 ≤ (asks.map (fun a => a.Amount)).sum := by
      apply List.sum_nonneg
      intro x hx
      obtain ⟨l, hl, rfl⟩ := List.mem_map.mp hx
      exact ha l hl
    have htv : (bids.map (fun b => b.Amount)).sum
        + (asks.map (fun a => a.Amount)).sum ≠ 0 := by
      intro h0
      exact hz ⟨by linarith, by linarith⟩
    unfold calculateImbalance
    rw [if_neg hz]
    simp [div?, htv]

lemma calculateDepth_isSome (bids asks : List OrderLevel)
    (hbne : bids ≠ []) (hane : asks ≠ [])
    (hbp : ∀ x ∈ bids, 0 < x.Price) (hap : ∀ x ∈ asks, 0 < x.Price) :
    (calculateDepth bids asks).isSome := by
  obtain ⟨b0, bs, rfl⟩ := List.exists_cons_of_ne_nil hbne
  obtain ⟨a0, atl, rfl⟩ := List.exists_cons_of_ne_nil hane
  have hb0 : 0 < b0.Price := hbp b0 (List.mem_cons_self _ _)
  have ha0 : 0 < a0.Price := hap a0 (List.mem_cons_self _ _)
  have hmid : (b0.Price + a0.Price) / 2 ≠ 0 :=
    ne_of_gt (div_pos (by linarith) (by norm_num))
  simp only [calculateDepth, List.head?_cons, Option.bind_eq_bind, Option.some_bind]
  rw [if_neg hmid]
  rfl

lemma calculateSupportResistance_isSome (bids asks : List OrderLevel)
    (hbp : ∀ x ∈ bids, 0 < x.Price) (hap : ∀ x ∈ asks, 0 < x.Price) :
    (calculateSupportResistance bids asks).isSome := by
  unfold calculateSupportResistance
  by_cases hlen : bids.length < 3 ∨ asks.length < 3
  · rw [if_pos hlen]
    rfl
  · rw [if_neg hlen]
    push_neg at hlen
    by_cases hsig : (findSignificantLevels bids).isEmpty
        ∧ (findSignificantLevels asks).isEmpty
    · rw [if_pos hsig]
      rfl
    · rw [if_neg hsig]
      have hbne : bids ≠ [] := List.ne_nil_of_length_pos (by omega)
      have hane : asks ≠ [] := List.ne_nil_of_length_pos (by omega)
      obtain ⟨b0, bs, hbeq⟩ := List.exists_cons_of_ne_nil hbne
      obtain ⟨a0, atl, haeq⟩ := List.exists_cons_of_ne_nil hane
      have hb0 : 0 < b0.Price := hbp b0 (hbeq ▸ List.mem_cons_self _ _)
      have ha0 : 0 < a0.Price := hap a0 (haeq ▸ List.mem_cons_self _ _)
      have hcp : (b0.Price + a0.Price) / 2 ≠ 0 :=
        ne_of_gt (div_pos (by linarith) (by norm_num))
      rw [hbeq, haeq]
      simp only [List.head?_cons, Option.bind_eq_bind, Option.some_bind]
      cases hfc1 : findClosestLevel (findSignificantLevels (b0 :: bs))
          ((b0.Price + a0.Price) / 2) false with
      | none => rfl
      | some closestSupport =>
        cases hfc2 : findClosestLevel (findSignificantLevels (a0 :: atl))
            ((b0.Price + a0.Price) / 2) true with
        | none => rfl
        | some closestResistance =>
          simp only [div?, if_neg hcp, Option.bind_eq_bind, Option.some_bind]
          split_ifs <;> rfl

lemma spreadTerm_isSome (levels : List OrderLevel)
    (hp : ∀ x ∈ levels, 0 < x.Price) (i : ℕ) :
    (spreadTerm levels i).isSome := by
  unfold spreadTerm
  cases hx : levels.get? i with
  | none => rfl
  | some x =>
    cases hy : levels.get? (i + 1) with
    | none => rfl
    | some y =>
      have hne : levels ≠ [] := by
        intro h0
        rw [h0] at hx
        cases hx
      obtain ⟨f, hf⟩ := Option.isSome_iff_exists.mp
        (by rw [List.head?_isSome]; exact hne)
      obtain ⟨l, hl⟩ := Option.isSome_iff_exists.mp (List.getLast?_isSome.mpr hne)
      have hxp : 0 < x.Price := hp x (List.get?_mem hx)
      have hyp : 0 < y.Price := hp y (List.get?_mem hy)
      rw [hf, hl]
      show (if f.Price > l.Price then div? (x.Price - y.Price) y.Price
        else div? (y.Price - x.Price) x.Price).isSome = true
      split_ifs <;> simp [div?, ne_of_gt hxp, ne_of_gt hyp]

lemma spreadTerms_isSome (levels : List OrderLevel)
    (hp : ∀ x ∈ levels, 0 < x.Price) :
    ∀ idxs : List ℕ, (spreadTerms levels idxs).isSome := by
  intro idxs
  induction idxs with
  | nil => rfl
  | cons i is ih =>
    obtain ⟨v, hv⟩ := Option.isSome_iff_exists.mp (spreadTerm_isSome levels hp i)
    obtain ⟨vs, hvs⟩ := Option.isSome_iff_exists.mp ih
    simp [spreadTerms, hv, hvs]

lemma calculateAverageSpreads_isSome (levels : List OrderLevel) (count : ℕ)
    (hp : ∀ x ∈ levels, 0 < x.Price) :
    (calculateAverageSpreads levels count).isSome := by
  unfold calculateAverageSpreads
  by_cases hzero : (if levels.length < count + 1 then levels.length - 1 else count) = 0
  · simp only [hzero]
    rfl
  · obtain ⟨out, hout⟩ := Option.isSome_iff_exists.mp
      (spreadTerms_isSome levels hp
        (List.range (if levels.length < count + 1 then levels.length - 1 else count)))
    simp [hzero, hout]

lemma calculateSpreads_isSome (bids asks : List OrderLevel)
    (hbne : bids ≠ []) (hane : asks ≠ [])
    (hbp : ∀ x ∈ bids, 0 < x.Price) (hap : ∀ x ∈ asks, 0 < x.Price) :
    (calculateSpreads bids asks).isSome := by
  obtain ⟨b0, bs, rfl⟩ := List.exists_cons_of_ne_nil hbne
  obtain ⟨a0, atl, rfl⟩ := List.exists_cons_of_ne_nil hane
  have hb0 : 0 < b0.Price := hbp b0 (List.mem_cons_self _ _)
  have ha0 : 0 < a0.Price := hap a0 (List.mem_cons_self _ _)
  have hmid : (a0.Price + b0.Price) / 2 ≠ 0 :=
    ne_of_gt (div_pos (by linarith) (by norm_num))
  have hsum : a0.Price + b0.Price ≠ 0 := by
    intro h0
    linarith
  obtain ⟨q1, h1⟩ := Option.isSome_iff_exists.mp
    (calculateAverageSpreads_isSome (b0 :: bs) 5 hbp)
  obtain ⟨q2, h2⟩ := Option.isSome_iff_exists.mp
    (calculateAverageSpreads_isSome (a0 :: atl) 5 hap)
  simp [calculateSpreads, div?, hmid, hsum, h1, h2]

/-- C10: on any order book with at least one level on each side, all of
whose price/amount strings parse, with strictly positive prices and
non-negative amounts, the order-book `Analyze` completes without an
out-of-range index access or a division by zero and returns a signal. -/
theorem claim_C10_orderbook_analyze_safe (cfg : OrderBookConfig) (book : OrderBook)
    (hbne : book.Bids ≠ []) (hane : book.Asks ≠ [])
    (h : ∀ l ∈ book.Bids ++ book.Asks,
      ∃ p a, l.Price = some p ∧ l.Amount = some a ∧ 0 < p ∧ 0 ≤ a) :
    ∃ q : ℚ, orderbookAnalyze cfg book = some (.ok q) := by
  obtain ⟨bids0, hpb, hbl, hbmem⟩ := parseLevels_ok book.Bids
    (fun l hl => h l (List.mem_append_left _ hl))
  obtain ⟨asks0, hpa, hal, hamem⟩ := parseLevels_ok book.Asks
    (fun l hl => h l (List.mem_append_right _ hl))
  have hconv : convertOrderBookLevels book
      = .ok (bids0.mergeSort (fun i j => decide (j.Price ≤ i.Price)),
        asks0.mergeSort (fun i j => decide (i.Price ≤ j.Price))) := by
    unfold convertOrderBookLevels
    rw [hpb, hpa]
  set bidsS := bids0.mergeSort (fun i j => decide (j.Price ≤ i.Price)) with hbS
  set asksS := asks0.mergeSort (fun i j => decide (i.Price ≤ j.Price)) with haS
  have hbperm : bidsS.Perm bids0 := List.mergeSort_perm bids0 _
  have haperm : asksS.Perm asks0 := List.mergeSort_perm asks0 _
  have hbSmem : ∀ x ∈ bidsS, 0 < x.Price ∧ 0 ≤ x.Amount :=
    fun x hx => hbmem x (hbperm.mem_iff.mp hx)
  have haSmem : ∀ x ∈ asksS, 0 < x.Price ∧ 0 ≤ x.Amount :=
    fun x hx => hamem x (haperm.mem_iff.mp hx)
  have hbSne : bidsS ≠ [] := by
    apply List.ne_nil_of_length_pos
    rw [hbperm.length_eq, hbl]
    exact List.length_pos.mpr hbne
  have haSne : asksS ≠ [] := by
    apply List.ne_nil_of_length_pos
    rw [haperm.length_eq, hal]
    exact List.length_pos.mpr hane
  obtain ⟨v1, h1⟩ := Option.isSome_iff_exists.mp
    (calculateImbalance_isSome cfg.ImbalanceThreshold bidsS asksS
      (fun x hx => (hbSmem x hx).2) (fun x hx => (haSmem x hx).2))
  obtain ⟨v2, h2⟩ := Option.isSome_iff_exists.mp
    (calculateDepth_isSome bidsS asksS hbSne haSne
      (fun x hx => (hbSmem x hx).1) (fun x hx => (haSmem x hx).1))
  obtain ⟨v3, h3⟩ := Option.isSome_iff_exists.mp
    (calculateSupportResistance_isSome bidsS asksS
      (fun x hx => (hbSmem x hx).1) (fun x hx => (haSmem x hx).1))
  obtain ⟨v4, h4⟩ := Option.isSome_iff_exists.mp
    (calculateSpreads_isSome bidsS asksS hbSne haSne
      (fun x hx => (hbSmem x hx).1) (fun x hx => (haSmem x hx).1))
  refine ⟨v1 * (2/5) + v2 * (1/5) + v3 * (1/4) + v4 * (3/20), ?_⟩
  unfold orderbookAnalyze
  rw [hconv]
  simp [h1, h2, h3, h4]

theorem claim_C10_orderbook_analyze_safe_witness :
    ∃ q : ℚ, orderbookAnalyze ⟨10, 5⟩
      ⟨[⟨some 100, some 70⟩], [⟨some 101, some 30⟩]⟩ = some (.ok q) := by
  apply claim_C10_orderbook_analyze_safe
  · simp
  · simp
  · intro l hl
    simp only [List.mem_append, List.mem_singleton] at hl
    rcases hl with rfl | rfl
    · exact ⟨100, 70, rfl, rfl, by norm_num, by norm_num⟩
    · exact ⟨101, 30, rfl, rfl, by norm_num, by norm_num⟩

end BFMA
